import Mathlib

/-!
Shallow embedding of the boss-encounter controller in
src/BossAttackController.jsx: the attack catalog, the utility functions
(getAttacksForBoss, selectRandomAttack, calculateNextAttackDelay) and the
attack-cycle state machine of the useBossAttackController hook, modelled as a
pure state-transformer semantics with an explicit timer queue standing for the
JS event loop (setTimeout / clearTimeout).
-/

/-- One attack definition from the catalog (COMMON_ATTACKS / UNIQUE_ATTACKS in
the source). JS numbers are modelled as rationals; `bossLevel` is `none` for
common attacks, which have no such field in the source. -/
structure AttackDef where
  id : String
  name : String
  type : String
  bossLevel : Option Nat := none
  damage : ℚ
  telegraphDuration : ℚ
  executeDuration : ℚ
  recoveryDuration : ℚ
  dangerZone : String
  indicator : String
  sound : String
  evasionDirection : String
  description : String
deriving DecidableEq

/-- COMMON_ATTACKS.SWEEPING_LASER from the source. -/
def SWEEPING_LASER : AttackDef :=
  { id := "sweeping_laser", name := "Sweeping Laser", type := "common",
    damage := 25, telegraphDuration := 1200, executeDuration := 1800,
    recoveryDuration := 800, dangerZone := "horizontal_sweep",
    indicator := "laser_charge", sound := "laser_charge",
    evasionDirection := "vertical",
    description := "A horizontal laser that sweeps across the arena" }

/-- COMMON_ATTACKS.MISSILE_BARRAGE from the source. -/
def MISSILE_BARRAGE : AttackDef :=
  { id := "missile_barrage", name := "Missile Barrage", type := "common",
    damage := 15, telegraphDuration := 1500, executeDuration := 2500,
    recoveryDuration := 1000, dangerZone := "tracking_missiles",
    indicator := "lock_on", sound := "missile_lock",
    evasionDirection := "barrel_roll",
    description := "Multiple tracking missiles that require barrel roll to evade" }

/-- UNIQUE_ATTACKS.STOMP_SHOCKWAVE (level 1) from the source. -/
def STOMP_SHOCKWAVE : AttackDef :=
  { id := "stomp_shockwave", name := "Seismic Stomp", type := "unique",
    bossLevel := some 1, damage := 40, telegraphDuration := 1800,
    executeDuration := 1200, recoveryDuration := 1500,
    dangerZone := "ground_ring", indicator := "leg_raise",
    sound := "mechanical_charge", evasionDirection := "up",
    description := "Boss raises leg and slams down creating a ground shockwave" }

/-- UNIQUE_ATTACKS.DEBRIS_STORM (level 2) from the source. -/
def DEBRIS_STORM : AttackDef :=
  { id := "debris_storm", name := "Debris Storm", type := "unique",
    bossLevel := some 2, damage := 20, telegraphDuration := 2000,
    executeDuration := 3000, recoveryDuration := 800,
    dangerZone := "scattered_zones", indicator := "asteroid_gather",
    sound := "rumble", evasionDirection := "weave",
    description := "Boss pulls in asteroids and hurls them at player" }

/-- UNIQUE_ATTACKS.CRYO_BLAST (level 3) from the source. -/
def CRYO_BLAST : AttackDef :=
  { id := "cryo_blast", name := "Cryo Blast", type := "unique",
    bossLevel := some 3, damage := 35, telegraphDuration := 1400,
    executeDuration := 1600, recoveryDuration := 1200,
    dangerZone := "cone_forward", indicator := "frost_buildup",
    sound := "ice_charge", evasionDirection := "horizontal",
    description := "Boss charges and releases a freezing cone attack" }

/-- UNIQUE_ATTACKS.SOLAR_FLARE (level 4) from the source. -/
def SOLAR_FLARE : AttackDef :=
  { id := "solar_flare", name := "Solar Flare", type := "unique",
    bossLevel := some 4, damage := 50, telegraphDuration := 2200,
    executeDuration := 1000, recoveryDuration := 2000,
    dangerZone := "full_arena_flash", indicator := "heat_buildup",
    sound := "plasma_charge", evasionDirection := "barrel_roll",
    description := "Massive arena-wide blast requiring perfect timing" }

/-- UNIQUE_ATTACKS.TOXIC_SPRAY (level 5) from the source. -/
def TOXIC_SPRAY : AttackDef :=
  { id := "toxic_spray", name := "Toxic Spray", type := "unique",
    bossLevel := some 5, damage := 30, telegraphDuration := 1600,
    executeDuration := 2200, recoveryDuration := 900,
    dangerZone := "spreading_cloud", indicator := "gas_buildup",
    sound := "hiss", evasionDirection := "retreat",
    description := "Boss releases expanding toxic cloud" }

/-- UNIQUE_ATTACKS.SYSTEM_CORRUPTION (level 6) from the source. -/
def SYSTEM_CORRUPTION : AttackDef :=
  { id := "system_corruption", name := "System Corruption", type := "unique",
    bossLevel := some 6, damage := 45, telegraphDuration := 1000,
    executeDuration := 2800, recoveryDuration := 1100,
    dangerZone := "glitch_zones", indicator := "static_interference",
    sound := "digital_screech", evasionDirection := "random",
    description := "Creates glitching danger zones that shift unpredictably" }

/-- UNIQUE_ATTACKS.ANDROSS_WRATH (level 7) from the source. -/
def ANDROSS_WRATH : AttackDef :=
  { id := "andross_wrath", name := "Andross Wrath", type := "unique",
    bossLevel := some 7, damage := 60, telegraphDuration := 2500,
    executeDuration := 3500, recoveryDuration := 1500,
    dangerZone := "multi_phase", indicator := "power_surge",
    sound := "ultimate_charge", evasionDirection := "complex",
    description := "Multi-phase devastating attack requiring multiple evasions" }

/-- Object.values(COMMON_ATTACKS), in insertion order. -/
def COMMON_ATTACKS : List AttackDef := [SWEEPING_LASER, MISSILE_BARRAGE]

/-- Object.values(UNIQUE_ATTACKS), in insertion order. -/
def UNIQUE_ATTACKS : List AttackDef :=
  [STOMP_SHOCKWAVE, DEBRIS_STORM, CRYO_BLAST, SOLAR_FLARE, TOXIC_SPRAY,
   SYSTEM_CORRUPTION, ANDROSS_WRATH]

/-- ATTACK_REGISTRY: every attack keyed by its id (spread of the common then
the unique tables; all ids are distinct, so first-match lookup agrees with the
JS object). -/
def ATTACK_REGISTRY : List (String × AttackDef) :=
  (COMMON_ATTACKS ++ UNIQUE_ATTACKS).map (fun a => (a.id, a))

/-- ATTACK_REGISTRY[attackId]: property lookup on the registry object,
`none` standing for JS undefined. -/
def findAttack (attackId : String) : Option AttackDef :=
  (ATTACK_REGISTRY.find? (fun p => decide (p.1 = attackId))).map Prod.snd

/-- Result record of getAttacksForBoss. -/
structure BossAttackSet where
  common : List AttackDef
  unique : Option AttackDef
  all : List AttackDef
deriving DecidableEq

/-- getAttacksForBoss from the source: all common attacks, plus the first
unique attack whose bossLevel equals the requested level (Array.find),
if any. -/
def getAttacksForBoss (bossLevel : Nat) : BossAttackSet :=
  let commonAttacks := COMMON_ATTACKS
  let uniqueAttack := UNIQUE_ATTACKS.find? (fun a => decide (a.bossLevel = some bossLevel))
  { common := commonAttacks
    unique := uniqueAttack
    all := match uniqueAttack with
           | some u => commonAttacks ++ [u]
           | none => commonAttacks }

/-- The subtraction walk inside selectRandomAttack's for-loop: subtract each
weight from the running draw and return the first attack at which the running
draw has dropped to 0 or below. If the weight list runs out first the JS code
computes with undefined (NaN), selects nothing, and falls through to the
fallback; that case is `none` here. -/
def walkSelect : List AttackDef → List ℚ → ℚ → Option AttackDef
  | [], _, _ => none
  | _ :: _, [], _ => none
  | a :: as, w :: ws, random =>
    if random - w ≤ 0 then some a else walkSelect as ws (random - w)

/-- selectRandomAttack from the source. `weights = none` models the null
default (uniform index pick); `rand` models the Math.random() draw in [0,1).
The JS function returns undefined on an empty list, modelled as `none`. -/
def selectRandomAttack (attacks : List AttackDef) (weights : Option (List ℚ))
    (rand : ℚ) : Option AttackDef :=
  match weights with
  | none => attacks.get? (rand * attacks.length).floor.toNat
  | some ws =>
    let totalWeight := ws.foldl (fun sum w => sum + w) 0
    let random := rand * totalWeight
    match walkSelect attacks ws random with
    | some a => some a
    | none => attacks.getLast?

/-- three.js MathUtils.randFloat(low, high) with the Math.random() draw made
an explicit parameter. -/
def randFloat (low high rand : ℚ) : ℚ := low + rand * (high - low)

/-- BOSS_CONFIG.ATTACK_INTERVAL_MIN. -/
def ATTACK_INTERVAL_MIN : ℚ := 3000

/-- BOSS_CONFIG.ATTACK_INTERVAL_MAX. -/
def ATTACK_INTERVAL_MAX : ℚ := 6000

/-- calculateNextAttackDelay from the source: base delay drawn uniformly from
the configured interval, scaled by rageMultiplier = 1 - bossHealthPercent*0.3. -/
def calculateNextAttackDelay (bossHealthPercent rand : ℚ) : ℚ :=
  let rageMultiplier := 1 - bossHealthPercent * (3 / 10)
  let baseDelay := randFloat ATTACK_INTERVAL_MIN ATTACK_INTERVAL_MAX rand
  baseDelay * rageMultiplier

/-- ATTACK_PHASE from the source. -/
inductive Phase
  | idle
  | telegraph
  | executing
  | recovery
deriving DecidableEq

/-- The callback body of one pending setTimeout of the hook. The
damage-check case records the player-invulnerable value that the JS closure
fixed when the startAttack callback was created (it is a captured `const`
prop, not re-read when the timer fires). -/
inductive TimerAction
  | toExecuting (attack : AttackDef) (invulCaptured : Bool)
  | damageCheck (damage : ℚ) (invulCaptured : Bool)
  | toRecovery (attack : AttackDef)
  | toIdle (attack : AttackDef)
  | nextAttack
  | clearHitFlag
deriving DecidableEq

/-- One pending setTimeout: its handle, absolute fire time (ms) and callback. -/
structure Timer where
  id : Nat
  fireAt : ℚ
  action : TimerAction
deriving DecidableEq

/-- The state of one useBossAttackController encounter: the React state and
refs of the hook, the pending setTimeout queue of the JS event loop, the
external player-invulnerable prop, the Math.random() draws still to be
consumed, and the observable callback history (onBossDefeated count,
onPlayerHit arguments). -/
structure CtrlState where
  bossLevel : Nat
  maxHP : ℚ
  currentHP : ℚ
  phase : Phase
  currentAttack : Option AttackDef
  attackProgress : ℚ
  isHit : Bool
  attackTimer : Option Nat
  phaseTimer : Option Nat
  attackStartTime : ℚ
  currentPhaseDuration : ℚ
  timers : List Timer
  nextTimerId : Nat
  now : ℚ
  playerInvulnerable : Bool
  rands : List ℚ
  defeatedCalls : Nat
  playerHitCalls : List ℚ
deriving DecidableEq

/-- setTimeout: append a fresh timer to the event loop queue and return its
handle. -/
def addTimer (s : CtrlState) (fireAt : ℚ) (act : TimerAction) : Nat × CtrlState :=
  (s.nextTimerId,
   { s with timers := s.timers ++ [{ id := s.nextTimerId, fireAt := fireAt, action := act }]
            nextTimerId := s.nextTimerId + 1 })

/-- clearTimeout on an optional stored handle: removes the matching pending
timer if it has not fired yet, otherwise does nothing (also a no-op on an
undefined handle). -/
def clearTimer (s : CtrlState) (handle : Option Nat) : CtrlState :=
  match handle with
  | none => s
  | some i => { s with timers := s.timers.filter (fun u => u.id != i) }

/-- damageBoss from the source: set the hit flash (with its own untracked
150 ms reset timer), clamp health to max(0, hp - amount), and invoke
onBossDefeated whenever the new health is ≤ 0 — the source has no guard
against repeat invocations. -/
def damageBoss (amount : ℚ) (s : CtrlState) : CtrlState :=
  let s1 := { s with isHit := true }
  let s2 := (addTimer s1 (s1.now + 150) .clearHitFlag).2
  let newHP := max 0 (s2.currentHP - amount)
  let s3 := if newHP ≤ 0 then { s2 with defeatedCalls := s2.defeatedCalls + 1 } else s2
  { s3 with currentHP := newHP }

/-- startAttack from the source: enter Telegraph for the given attack and arm
the telegraph phase timer. The player-invulnerable prop is captured here by
the JS closure (useCallback over playerIsInvulnerable) and threaded, fixed,
into the later execute-phase damage check. -/
def startAttack (attack : AttackDef) (s : CtrlState) : CtrlState :=
  let s1 := { s with currentAttack := some attack
                     phase := Phase.telegraph
                     attackStartTime := s.now
                     currentPhaseDuration := attack.telegraphDuration }
  let (tid, s2) := addTimer s1 (s1.now + attack.telegraphDuration)
      (.toExecuting attack s1.playerInvulnerable)
  { s2 with phaseTimer := some tid }

/-- scheduleNextAttack from the source: no-op when health is already ≤ 0,
otherwise arm the inter-attack timer after calculateNextAttackDelay,
consuming one Math.random() draw. -/
def scheduleNextAttack (s : CtrlState) : CtrlState :=
  if s.currentHP ≤ 0 then s
  else
    let r := s.rands.headD 0
    let s1 := { s with rands := s.rands.tail }
    let delay := calculateNextAttackDelay (s1.currentHP / s1.maxHP) r
    let (tid, s2) := addTimer s1 (s1.now + delay) .nextAttack
    { s2 with attackTimer := some tid }

/-- Body of the telegraph timer: enter Executing, schedule the one-shot
damage check at 0.3 × executeDuration — its setTimeout handle is discarded in
the source (stored in no ref), so nothing can ever cancel it — and arm the
phase timer for the Executing → Recovery transition. -/
def runToExecuting (attack : AttackDef) (invulCaptured : Bool) (s : CtrlState) : CtrlState :=
  let s1 := { s with phase := Phase.executing
                     attackStartTime := s.now
                     currentPhaseDuration := attack.executeDuration }
  let s2 := (addTimer s1 (s1.now + attack.executeDuration * (3 / 10))
      (.damageCheck attack.damage invulCaptured)).2
  let (tid, s3) := addTimer s2 (s2.now + attack.executeDuration) (.toRecovery attack)
  { s3 with phaseTimer := some tid }

/-- Body of the damage-check timer: invoke onPlayerHit with the attack's
damage unless the captured player-invulnerable value was set. -/
def runDamageCheck (damage : ℚ) (invulCaptured : Bool) (s : CtrlState) : CtrlState :=
  if invulCaptured then s
  else { s with playerHitCalls := s.playerHitCalls ++ [damage] }

/-- Body of the execute timer: enter Recovery and arm the Recovery → Idle
phase timer. -/
def runToRecovery (attack : AttackDef) (s : CtrlState) : CtrlState :=
  let s1 := { s with phase := Phase.recovery
                     attackStartTime := s.now
                     currentPhaseDuration := attack.recoveryDuration }
  let (tid, s2) := addTimer s1 (s1.now + attack.recoveryDuration) (.toIdle attack)
  { s2 with phaseTimer := some tid }

/-- Body of the recovery timer: return to Idle, clear the current attack and
progress, then call scheduleNextAttack. -/
def runToIdle (s : CtrlState) : CtrlState :=
  let s1 := { s with phase := Phase.idle
                     currentAttack := none
                     attackProgress := 0 }
  scheduleNextAttack s1

/-- Body of the inter-attack timer: build the weighted pool (unique attacks
weigh 2 below half health, everything else 1), select with one Math.random()
draw, and start the selected attack. The pool always holds the two common
attacks, so the selection cannot come back empty. -/
def runNextAttack (s : CtrlState) : CtrlState :=
  let attackPool := (getAttacksForBoss s.bossLevel).all
  let healthPercent := s.currentHP / s.maxHP
  let weights := attackPool.map
      (fun atk => if atk.type = "unique" ∧ healthPercent < 1 / 2 then (2 : ℚ) else 1)
  let r := s.rands.headD 0
  let s1 := { s with rands := s.rands.tail }
  match selectRandomAttack attackPool (some weights) r with
  | some a => startAttack a s1
  | none => s1

/-- Dispatch one fired timer callback. -/
def runAction : TimerAction → CtrlState → CtrlState
  | .toExecuting attack invulCaptured, s => runToExecuting attack invulCaptured s
  | .damageCheck damage invulCaptured, s => runDamageCheck damage invulCaptured s
  | .toRecovery attack, s => runToRecovery attack s
  | .toIdle _, s => runToIdle s
  | .nextAttack, s => runNextAttack s
  | .clearHitFlag, s => { s with isHit := false }

/-- The pending timer that the event loop runs next: least fire time,
scheduling order breaking ties (the queue is kept in scheduling order). -/
def earliestTimer : List Timer → Option Timer
  | [] => none
  | t :: ts =>
    match earliestTimer ts with
    | none => some t
    | some u => if t.fireAt ≤ u.fireAt then some t else some u

/-- Let the next pending timer fire: advance the clock to its fire time,
remove it from the queue, and run its callback. -/
def fireEarliest (s : CtrlState) : CtrlState :=
  match earliestTimer s.timers with
  | none => s
  | some t =>
    runAction t.action
      { s with timers := s.timers.filter (fun u => u.id != t.id)
               now := max s.now t.fireAt }

/-- The per-frame progress recomputation (useFrame): while not Idle,
progress = min 1 (elapsed / currentPhaseDuration). -/
def updateProgress (s : CtrlState) : CtrlState :=
  if s.phase ≠ Phase.idle ∧ 0 < s.currentPhaseDuration then
    { s with attackProgress := min 1 ((s.now - s.attackStartTime) / s.currentPhaseDuration) }
  else s

/-- forceAttack from the source: look the id up in ATTACK_REGISTRY; on a miss
do nothing; on a hit clear the stored inter-attack and phase timer handles and
start the attack. The untracked damage-check timer has no handle to clear. -/
def forceAttack (attackId : String) (s : CtrlState) : CtrlState :=
  match findAttack attackId with
  | none => s
  | some attack =>
    let s1 := clearTimer s s.attackTimer
    let s2 := clearTimer s1 s1.phaseTimer
    startAttack attack s2

/-- One external stimulus to a running encounter: let the next timer fire, a
render frame, an external damageBoss call, a forceAttack call, or a change of
the player-invulnerable prop. -/
inductive Event
  | fire
  | frame
  | damage (amount : ℚ)
  | force (attackId : String)
  | setInvul (b : Bool)
deriving DecidableEq

/-- Apply one event. -/
def step (s : CtrlState) : Event → CtrlState
  | .fire => fireEarliest s
  | .frame => updateProgress s
  | .damage amount => damageBoss amount s
  | .force attackId => forceAttack attackId s
  | .setInvul b => { s with playerInvulnerable := b }

/-- Run a sequence of events. -/
def run (s : CtrlState) (events : List Event) : CtrlState :=
  events.foldl step s

/-- Fresh encounter state for a boss level and health pool, before the
mount-time scheduleNextAttack call, with a given stream of Math.random()
draws. -/
def mkInit (bossLevel : Nat) (maxHP : ℚ) (rands : List ℚ) : CtrlState :=
  { bossLevel := bossLevel, maxHP := maxHP, currentHP := maxHP
    phase := Phase.idle, currentAttack := none, attackProgress := 0
    isHit := false, attackTimer := none, phaseTimer := none
    attackStartTime := 0, currentPhaseDuration := 0
    timers := [], nextTimerId := 0, now := 0
    playerInvulnerable := false, rands := rands
    defeatedCalls := 0, playerHitCalls := [] }

/-- A level-1, 1000 HP encounter (the source defaults), used by the concrete
trace theorems. -/
def initFight : CtrlState := mkInit 1 1000 []

/-- The requirement the spec puts on external damage events: amounts are
nonnegative (other events carry no amount). -/
def eventAmountOk : Event → Prop
  | .damage amount => 0 ≤ amount
  | _ => True

instance (e : Event) : Decidable (eventAmountOk e) :=
  match e with
  | .damage amount => inferInstanceAs (Decidable ((0 : ℚ) ≤ amount))
  | .fire => .isTrue trivial
  | .frame => .isTrue trivial
  | .force _ => .isTrue trivial
  | .setInvul _ => .isTrue trivial

/-- Modelled from the spec: walk the weighted list and return the first
attack whose cumulative weight (the running total `cum` plus its own weight)
strictly exceeds the draw — the literal reading of "the first attack whose
cumulative weight exceeds the draw". -/
def firstCumExceeding (attacks : List AttackDef) (ws : List ℚ) (draw cum : ℚ) :
    Option AttackDef :=
  match attacks, ws with
  | [], _ => none
  | _ :: _, [] => none
  | a :: as, w :: ws =>
    if draw < cum + w then some a else firstCumExceeding as ws draw (cum + w)

/-- Modelled from the spec, amended reading: walk the weighted list and
return the first attack whose cumulative weight reaches or exceeds the
draw. -/
def firstCumReaching (attacks : List AttackDef) (ws : List ℚ) (draw cum : ℚ) :
    Option AttackDef :=
  match attacks, ws with
  | [], _ => none
  | _ :: _, [] => none
  | a :: as, w :: ws =>
    if draw ≤ cum + w then some a else firstCumReaching as ws draw (cum + w)

/-- The encounter two events in: a forced Seismic Stomp whose telegraph timer
has fired, so the machine is in Executing with the untracked 30%-mark damage
check and the Executing → Recovery transition pending. -/
def midExecuteState : CtrlState := run initFight [.force "stomp_shockwave", .fire]

/-- The pending 30%-mark damage check of midExecuteState: armed at
1800 + 0.3 × 1200 = 2160 ms with Seismic Stomp's damage of 40, holding the
captured player-invulnerable value false. -/
def staleDamageCheck : Timer :=
  { id := 1, fireAt := 2160, action := .damageCheck 40 false }

/-! ### Shared helper lemmas about the state machine -/

/-- damageBoss leaves health at the clamped value max(0, hp - amount). -/
theorem damageBoss_currentHP (amount : ℚ) (s : CtrlState) :
    (damageBoss amount s).currentHP = max 0 (s.currentHP - amount) := rfl

/-- damageBoss never changes the max health. -/
theorem damageBoss_maxHP (amount : ℚ) (s : CtrlState) :
    (damageBoss amount s).maxHP = s.maxHP := by
  simp only [damageBoss, addTimer]
  split <;> rfl

/-- A damageBoss call whose amount covers the remaining health invokes
onBossDefeated (once more). -/
theorem damageBoss_defeatedCalls_of_kill (amount : ℚ) (s : CtrlState)
    (h : s.currentHP ≤ amount) :
    (damageBoss amount s).defeatedCalls = s.defeatedCalls + 1 := by
  have hcond : max 0 (s.currentHP - amount) ≤ 0 := by
    simp only [max_le_iff, le_refl, sub_nonpos, true_and]
    exact h
  simp only [damageBoss, addTimer, if_pos hcond]

/-- A run made of damageBoss calls with nonnegative amounts, started at
health 0, keeps health at 0 and invokes onBossDefeated once per call. -/
theorem run_damage_events_after_defeat (amounts : List ℚ) (s : CtrlState)
    (h0 : s.currentHP = 0) (hn : ∀ a ∈ amounts, 0 ≤ a) :
    (run s (amounts.map Event.damage)).currentHP = 0 ∧
    (run s (amounts.map Event.damage)).defeatedCalls
      = s.defeatedCalls + amounts.length := by
  induction amounts generalizing s with
  | nil => simpa [run] using h0
  | cons a as ih =>
    have ha : 0 ≤ a := hn a (List.mem_cons_self a as)
    have hstep : (damageBoss a s).currentHP = 0 := by
      rw [damageBoss_currentHP, h0]
      exact max_eq_left (by linarith)
    have hdef : (damageBoss a s).defeatedCalls = s.defeatedCalls + 1 :=
      damageBoss_defeatedCalls_of_kill a s (by rw [h0]; exact ha)
    have ihs := ih (damageBoss a s) hstep (fun x hx => hn x (List.mem_cons_of_mem a hx))
    have hrun : run s ((a :: as).map Event.damage)
        = run (damageBoss a s) (as.map Event.damage) := rfl
    refine ⟨by rw [hrun]; exact ihs.1, ?_⟩
    rw [hrun, ihs.2, hdef, List.length_cons]
    omega

/-- clearTimeout touches only the pending-timer queue. -/
theorem clearTimer_fields (s : CtrlState) (h : Option Nat) :
    (clearTimer s h).attackTimer = s.attackTimer ∧
    (clearTimer s h).phaseTimer = s.phaseTimer ∧
    (clearTimer s h).nextTimerId = s.nextTimerId := by
  cases h <;> exact ⟨rfl, rfl, rfl⟩

/-- A timer surviving clearTimeout was already pending. -/
theorem mem_clearTimer_subset (s : CtrlState) (h : Option Nat) (u : Timer)
    (hu : u ∈ (clearTimer s h).timers) : u ∈ s.timers := by
  cases h with
  | none => exact hu
  | some i => exact List.mem_of_mem_filter hu

/-- A pending timer whose handle differs from the cleared one survives
clearTimeout. -/
theorem mem_clearTimer_of_ne (s : CtrlState) (h : Option Nat) (t : Timer)
    (hmem : t ∈ s.timers) (hne : h ≠ some t.id) :
    t ∈ (clearTimer s h).timers := by
  cases h with
  | none => exact hmem
  | some i =>
    refine List.mem_filter.mpr ⟨hmem, ?_⟩
    have hi : t.id ≠ i := fun he => hne (by rw [he])
    simpa [bne_iff_ne] using hi

/-- A timer surviving clearTimeout of a concrete handle has a different
handle. -/
theorem mem_clearTimer_ne (s : CtrlState) (i : Nat) (u : Timer)
    (hu : u ∈ (clearTimer s (some i)).timers) : u.id ≠ i := by
  have := (List.mem_filter.mp hu).2
  simpa [bne_iff_ne] using this

/-- clearTimeout does not change health. -/
theorem clearTimer_health (s : CtrlState) (h : Option Nat) :
    (clearTimer s h).currentHP = s.currentHP ∧ (clearTimer s h).maxHP = s.maxHP := by
  cases h <;> exact ⟨rfl, rfl⟩

/-- Starting an attack does not change health. -/
theorem startAttack_health (a : AttackDef) (s : CtrlState) :
    (startAttack a s).currentHP = s.currentHP ∧ (startAttack a s).maxHP = s.maxHP :=
  ⟨rfl, rfl⟩

/-- Scheduling does not change health. -/
theorem scheduleNextAttack_health (s : CtrlState) :
    (scheduleNextAttack s).currentHP = s.currentHP ∧
    (scheduleNextAttack s).maxHP = s.maxHP := by
  unfold scheduleNextAttack
  split <;> exact ⟨rfl, rfl⟩

/-- The damage check does not change health. -/
theorem runDamageCheck_health (d : ℚ) (b : Bool) (s : CtrlState) :
    (runDamageCheck d b s).currentHP = s.currentHP ∧
    (runDamageCheck d b s).maxHP = s.maxHP := by
  unfold runDamageCheck
  split <;> exact ⟨rfl, rfl⟩

/-- Returning to Idle does not change health. -/
theorem runToIdle_health (s : CtrlState) :
    (runToIdle s).currentHP = s.currentHP ∧ (runToIdle s).maxHP = s.maxHP :=
  scheduleNextAttack_health
    { s with phase := Phase.idle, currentAttack := none, attackProgress := 0 }

/-- Picking and starting the next attack does not change health. -/
theorem runNextAttack_health (s : CtrlState) :
    (runNextAttack s).currentHP = s.currentHP ∧
    (runNextAttack s).maxHP = s.maxHP := by
  simp only [runNextAttack]
  split <;> exact ⟨rfl, rfl⟩

/-- No timer callback changes health (only damageBoss does). -/
theorem runAction_health (act : TimerAction) (s : CtrlState) :
    (runAction act s).currentHP = s.currentHP ∧ (runAction act s).maxHP = s.maxHP := by
  cases act with
  | toExecuting a b => exact ⟨rfl, rfl⟩
  | damageCheck d b => exact runDamageCheck_health d b s
  | toRecovery a => exact ⟨rfl, rfl⟩
  | toIdle a => exact runToIdle_health s
  | nextAttack => exact runNextAttack_health s
  | clearHitFlag => exact ⟨rfl, rfl⟩

/-- Letting a timer fire does not change health. -/
theorem fireEarliest_health (s : CtrlState) :
    (fireEarliest s).currentHP = s.currentHP ∧ (fireEarliest s).maxHP = s.maxHP := by
  unfold fireEarliest
  split
  · exact ⟨rfl, rfl⟩
  · rename_i t heq
    have h := runAction_health t.action
      { s with timers := s.timers.filter (fun u => u.id != t.id), now := max s.now t.fireAt }
    simpa using h

/-- The per-frame progress update does not change health. -/
theorem updateProgress_health (s : CtrlState) :
    (updateProgress s).currentHP = s.currentHP ∧ (updateProgress s).maxHP = s.maxHP := by
  unfold updateProgress
  split <;> exact ⟨rfl, rfl⟩

/-- forceAttack does not change health. -/
theorem forceAttack_health (attackId : String) (s : CtrlState) :
    (forceAttack attackId s).currentHP = s.currentHP ∧
    (forceAttack attackId s).maxHP = s.maxHP := by
  unfold forceAttack
  split
  · exact ⟨rfl, rfl⟩
  · rename_i atk heq
    have h1 := clearTimer_health s s.attackTimer
    have h2 := clearTimer_health (clearTimer s s.attackTimer)
      (clearTimer s s.attackTimer).phaseTimer
    constructor
    · show (clearTimer (clearTimer s s.attackTimer) (clearTimer s s.attackTimer).phaseTimer).currentHP
        = s.currentHP
      rw [h2.1, h1.1]
    · show (clearTimer (clearTimer s s.attackTimer) (clearTimer s s.attackTimer).phaseTimer).maxHP
        = s.maxHP
      rw [h2.2, h1.2]

/-- One event preserves the health invariant 0 ≤ hp ≤ maxHP when damage
amounts are nonnegative, and never changes maxHP. -/
theorem step_health (s : CtrlState) (e : Event) (he : eventAmountOk e)
    (h1 : 0 ≤ s.currentHP) (h2 : s.currentHP ≤ s.maxHP) :
    0 ≤ (step s e).currentHP ∧ (step s e).currentHP ≤ (step s e).maxHP ∧
    (step s e).maxHP = s.maxHP := by
  cases e with
  | fire =>
    simp only [step]
    have h := fireEarliest_health s
    exact ⟨h.1 ▸ h1, by rw [h.1, h.2]; exact h2, h.2⟩
  | frame =>
    simp only [step]
    have h := updateProgress_health s
    exact ⟨h.1 ▸ h1, by rw [h.1, h.2]; exact h2, h.2⟩
  | damage amount =>
    simp only [step]
    have ha : 0 ≤ amount := he
    have hHP := damageBoss_currentHP amount s
    have hM := damageBoss_maxHP amount s
    refine ⟨by rw [hHP]; exact le_max_left _ _, ?_, hM⟩
    rw [hHP, hM]
    exact max_le (le_trans h1 h2) (by linarith)
  | force attackId =>
    simp only [step]
    have h := forceAttack_health attackId s
    exact ⟨h.1 ▸ h1, by rw [h.1, h.2]; exact h2, h.2⟩
  | setInvul b => exact ⟨h1, h2, rfl⟩

/-- A whole event run preserves the health invariant when damage amounts are
nonnegative, and never changes maxHP. -/
theorem run_health (events : List Event) (s : CtrlState)
    (hev : ∀ e ∈ events, eventAmountOk e)
    (h1 : 0 ≤ s.currentHP) (h2 : s.currentHP ≤ s.maxHP) :
    0 ≤ (run s events).currentHP ∧
    (run s events).currentHP ≤ (run s events).maxHP ∧
    (run s events).maxHP = s.maxHP := by
  induction events generalizing s with
  | nil => exact ⟨h1, h2, rfl⟩
  | cons e es ih =>
    have hs := step_health s e (hev e (List.mem_cons_self e es)) h1 h2
    have ihs := ih (step s e) (fun x hx => hev x (List.mem_cons_of_mem e hx)) hs.1 hs.2.1
    refine ⟨ihs.1, ihs.2.1, ?_⟩
    show (run (step s e) es).maxHP = s.maxHP
    rw [ihs.2.2, hs.2.2]

/-! ### Claim theorems -/

/-- Claim C1, counterexample: on a 1000 HP encounter, damageBoss(1000)
followed by damageBoss(50) invokes onBossDefeated twice; the claim says the
second call after health has reached 0 must not cause a second invocation. -/
theorem defeat_callback_double_fire_cex :
    (run initFight [.damage 1000, .damage 50]).defeatedCalls = 2 := by
  norm_num +decide [run, step, damageBoss, addTimer, initFight, mkInit]

/-- Claim C1 (corrected): the defeat callback fires when a damageBoss call
first brings health to 0, but the source has no single-fire guard — every
further damageBoss call with a nonnegative amount while health is 0 invokes
it again, so after n post-defeat calls it has fired n + 1 times in total. -/
theorem defeat_callback_fires_per_call (s : CtrlState) (amount : ℚ)
    (amounts : List ℚ) (_h1 : 0 < s.currentHP) (h2 : s.currentHP ≤ amount)
    (hn : ∀ a ∈ amounts, 0 ≤ a) :
    (run s (Event.damage amount :: amounts.map Event.damage)).defeatedCalls
      = s.defeatedCalls + 1 + amounts.length := by
  have hstep : (damageBoss amount s).currentHP = 0 := by
    rw [damageBoss_currentHP]
    exact max_eq_left (by linarith)
  have hdef : (damageBoss amount s).defeatedCalls = s.defeatedCalls + 1 :=
    damageBoss_defeatedCalls_of_kill amount s h2
  have hrun : run s (Event.damage amount :: amounts.map Event.damage)
      = run (damageBoss amount s) (amounts.map Event.damage) := rfl
  rw [hrun, (run_damage_events_after_defeat amounts _ hstep hn).2, hdef]

/-- Witness for defeat_callback_fires_per_call: 1000 HP, a 1000-damage hit
and then two 50-damage hits give three onBossDefeated invocations. -/
theorem defeat_callback_fires_per_call_witness :
    (run initFight (Event.damage 1000 :: ([50, 50] : List ℚ).map Event.damage)).defeatedCalls
      = initFight.defeatedCalls + 1 + ([50, 50] : List ℚ).length :=
  defeat_callback_fires_per_call initFight 1000 [50, 50]
    (by norm_num [initFight, mkInit]) (by norm_num [initFight, mkInit])
    (by norm_num)

/-- Claim C2 (code bug): at full health (healthFraction 1.0) the code's rage
multiplier 1 - 1.0·0.3 is 0.7, not the claimed 1.0, and at zero health it is
1.0, not the claimed 0.7: with the midpoint draw (base delay 4500 ms) the
delay is 3150 = 0.7 × 4500 at full health and 4500 = 1.0 × 4500 at zero
health, the reverse of the claim and of the source's own comment that the
boss attacks faster as health decreases. -/
theorem calculateNextAttackDelay_rage_inverted :
    randFloat ATTACK_INTERVAL_MIN ATTACK_INTERVAL_MAX (1/2) = 4500 ∧
    calculateNextAttackDelay 1 (1/2) = (7/10) * 4500 ∧
    calculateNextAttackDelay 0 (1/2) = 4500 := by
  refine ⟨?_, ?_, ?_⟩ <;>
    norm_num [calculateNextAttackDelay, randFloat, ATTACK_INTERVAL_MIN, ATTACK_INTERVAL_MAX]

/-- Claim C5, counterexample: with health already 0, forceAttack still begins
a fresh Idle → Telegraph transition; the claim says the machine never begins
one after health reaches 0. -/
theorem forced_attack_after_defeat_cex :
    (run initFight [.damage 1000, .force "stomp_shockwave"]).phase = Phase.telegraph ∧
    (run initFight [.damage 1000, .force "stomp_shockwave"]).currentHP = 0 ∧
    (run initFight [.damage 1000, .force "stomp_shockwave"]).currentAttack
      = some STOMP_SHOCKWAVE := by
  refine ⟨?_, ?_, ?_⟩ <;>
    norm_num +decide [run, step, damageBoss, forceAttack, findAttack, ATTACK_REGISTRY,
      COMMON_ATTACKS, UNIQUE_ATTACKS, startAttack, clearTimer, addTimer, initFight, mkInit,
      List.find?, List.filter, SWEEPING_LASER, MISSILE_BARRAGE, STOMP_SHOCKWAVE, DEBRIS_STORM,
      CRYO_BLAST, SOLAR_FLARE, TOXIC_SPRAY, SYSTEM_CORRUPTION, ANDROSS_WRATH]

/-- Claim C5 (corrected): the scheduler itself does check health — invoking
scheduleNextAttack with health already ≤ 0 is a no-op, so the timer-driven
loop never arms a new attack after defeat; only a forced attack bypasses the
check. -/
theorem scheduleNextAttack_defeated_noop (s : CtrlState) (h : s.currentHP ≤ 0) :
    scheduleNextAttack s = s := by
  simp [scheduleNextAttack, h]

/-- Witness for scheduleNextAttack_defeated_noop at a concrete defeated
state. -/
theorem scheduleNextAttack_defeated_noop_witness :
    scheduleNextAttack (mkInit 1 0 []) = mkInit 1 0 [] :=
  scheduleNextAttack_defeated_noop (mkInit 1 0 []) (by norm_num [mkInit])

/-- Claim C6 (confirmed): for nonnegative damage amounts and nonnegative
prior health, damageBoss clamps health to max(0, health - amount), is
monotonic non-increasing, and never drives health below 0. -/
theorem damageBoss_clamps_and_monotone (s : CtrlState) (amount : ℚ)
    (hamt : 0 ≤ amount) (hhp : 0 ≤ s.currentHP) :
    (damageBoss amount s).currentHP = max 0 (s.currentHP - amount) ∧
    (damageBoss amount s).currentHP ≤ s.currentHP ∧
    0 ≤ (damageBoss amount s).currentHP := by
  refine ⟨damageBoss_currentHP amount s, ?_, ?_⟩ <;> rw [damageBoss_currentHP]
  · exact max_le hhp (by linarith)
  · exact le_max_left _ _

/-- Witness for damageBoss_clamps_and_monotone: a 300-damage hit on the
fresh 1000 HP encounter. -/
theorem damageBoss_clamps_and_monotone_witness :
    (damageBoss 300 initFight).currentHP = max 0 (initFight.currentHP - 300) ∧
    (damageBoss 300 initFight).currentHP ≤ initFight.currentHP ∧
    0 ≤ (damageBoss 300 initFight).currentHP :=
  damageBoss_clamps_and_monotone initFight 300 (by norm_num)
    (by norm_num [initFight, mkInit])

/-- Claim C10 (confirmed): forcing an attack identifier that is not in
ATTACK_REGISTRY leaves the entire machine state unchanged. -/
theorem forceAttack_unregistered_noop (s : CtrlState) (attackId : String)
    (h : findAttack attackId = none) : forceAttack attackId s = s := by
  simp [forceAttack, h]

/-- Witness for forceAttack_unregistered_noop: the id "plasma_storm" is not
registered, and forcing it on the fresh encounter changes nothing. -/
theorem forceAttack_unregistered_noop_witness :
    forceAttack "plasma_storm" initFight = initFight :=
  forceAttack_unregistered_noop initFight "plasma_storm" (by decide)

/-- Claim C3, counterexample: force Seismic Stomp, let its telegraph elapse
(now Executing, damage check pending at 2160 ms), then force Sweeping Laser —
the claim says this cancels the damage check; yet letting the next timer fire
delivers the abandoned Stomp's 40 damage to the player while the machine is
already telegraphing the Laser. -/
theorem forceAttack_abandoned_damage_check_cex :
    (run initFight [.force "stomp_shockwave", .fire, .force "sweeping_laser", .fire]).playerHitCalls
      = [40] ∧
    (run initFight [.force "stomp_shockwave", .fire, .force "sweeping_laser", .fire]).currentAttack
      = some SWEEPING_LASER ∧
    (run initFight [.force "stomp_shockwave", .fire, .force "sweeping_laser", .fire]).phase
      = Phase.telegraph := by
  refine ⟨?_, ?_, ?_⟩ <;>
    norm_num +decide [run, step, fireEarliest, earliestTimer, runAction, runToExecuting,
      runDamageCheck, forceAttack, findAttack, ATTACK_REGISTRY, COMMON_ATTACKS, UNIQUE_ATTACKS,
      startAttack, clearTimer, addTimer, initFight, mkInit, List.find?, List.filter,
      SWEEPING_LASER, MISSILE_BARRAGE, STOMP_SHOCKWAVE, DEBRIS_STORM, CRYO_BLAST, SOLAR_FLARE,
      TOXIC_SPRAY, SYSTEM_CORRUPTION, ANDROSS_WRATH]

/-- Claim C3 (corrected): forceAttack cancels the two ref-tracked timers (the
inter-attack timer and the phase-transition timer) and immediately enters
Telegraph for the new attack, but the damage-check timer's setTimeout handle
is stored in no ref, so any pending damage check survives the interrupt and
can still fire for the abandoned attack. The freshness hypothesis says the
stored handles behave like real setTimeout handles: every pending timer's id
is below the next id to be handed out. -/
theorem forceAttack_clears_tracked_timers_only (s : CtrlState) (attackId : String)
    (atk : AttackDef) (t : Timer)
    (hfind : findAttack attackId = some atk)
    (hmem : t ∈ s.timers)
    (hna : s.attackTimer ≠ some t.id) (hnp : s.phaseTimer ≠ some t.id)
    (hfresh : ∀ u ∈ s.timers, u.id < s.nextTimerId) :
    t ∈ (forceAttack attackId s).timers ∧
    (forceAttack attackId s).phase = Phase.telegraph ∧
    (forceAttack attackId s).currentAttack = some atk ∧
    (∀ u ∈ (forceAttack attackId s).timers, u ∈ s.timers →
      s.attackTimer ≠ some u.id ∧ s.phaseTimer ≠ some u.id) := by
  have hforce : forceAttack attackId s
      = startAttack atk (clearTimer (clearTimer s s.attackTimer)
          (clearTimer s s.attackTimer).phaseTimer) := by
    simp [forceAttack, hfind]
  have hpt : (clearTimer s s.attackTimer).phaseTimer = s.phaseTimer :=
    (clearTimer_fields s s.attackTimer).2.1
  have h1 : t ∈ (clearTimer s s.attackTimer).timers :=
    mem_clearTimer_of_ne s s.attackTimer t hmem hna
  have h2 : t ∈ (clearTimer (clearTimer s s.attackTimer)
      (clearTimer s s.attackTimer).phaseTimer).timers := by
    apply mem_clearTimer_of_ne _ _ _ h1
    rw [hpt]
    exact hnp
  have htimers : (forceAttack attackId s).timers
      = (clearTimer (clearTimer s s.attackTimer)
          (clearTimer s s.attackTimer).phaseTimer).timers
        ++ [{ id := s.nextTimerId,
              fireAt := (clearTimer (clearTimer s s.attackTimer)
                (clearTimer s s.attackTimer).phaseTimer).now + atk.telegraphDuration,
              action := .toExecuting atk
                (clearTimer (clearTimer s s.attackTimer)
                  (clearTimer s s.attackTimer).phaseTimer).playerInvulnerable }] := by
    rw [hforce]
    have hnid : (clearTimer (clearTimer s s.attackTimer)
        (clearTimer s s.attackTimer).phaseTimer).nextTimerId = s.nextTimerId := by
      rw [(clearTimer_fields _ _).2.2, (clearTimer_fields _ _).2.2]
    rw [show (startAttack atk (clearTimer (clearTimer s s.attackTimer)
        (clearTimer s s.attackTimer).phaseTimer)).timers
      = (clearTimer (clearTimer s s.attackTimer)
          (clearTimer s s.attackTimer).phaseTimer).timers
        ++ [{ id := (clearTimer (clearTimer s s.attackTimer)
                (clearTimer s s.attackTimer).phaseTimer).nextTimerId,
              fireAt := (clearTimer (clearTimer s s.attackTimer)
                (clearTimer s s.attackTimer).phaseTimer).now + atk.telegraphDuration,
              action := .toExecuting atk
                (clearTimer (clearTimer s s.attackTimer)
                  (clearTimer s s.attackTimer).phaseTimer).playerInvulnerable }] from rfl,
      hnid]
  refine ⟨?_, ?_, ?_, ?_⟩
  · rw [htimers]
    exact List.mem_append_left _ h2
  · rw [hforce]; rfl
  · rw [hforce]; rfl
  · intro u hu hus
    rw [htimers] at hu
    rcases List.mem_append.mp hu with h | h
    · constructor
      · cases ha : s.attackTimer with
        | none => exact fun he => Option.noConfusion he
        | some i =>
          have hu1 : u ∈ (clearTimer s (some i)).timers := by
            have := mem_clearTimer_subset _ _ _ h
            rw [ha] at this
            exact this
          have := mem_clearTimer_ne s i u hu1
          intro he
          exact this (Option.some.inj he).symm
      · cases hp : s.phaseTimer with
        | none => exact fun he => Option.noConfusion he
        | some j =>
          have hu1 : u ∈ (clearTimer (clearTimer s s.attackTimer) (some j)).timers := by
            rw [← hp, ← hpt]
            exact h
          have := mem_clearTimer_ne _ j u hu1
          intro he
          exact this (Option.some.inj he).symm
    · have hid : u.id = s.nextTimerId := by
        rw [List.mem_singleton.mp h]
      exact absurd (hfresh u hus) (by rw [hid]; exact lt_irrefl _)

/-- Witness for forceAttack_clears_tracked_timers_only: in midExecuteState
(Seismic Stomp in Executing) the pending 30%-mark damage check survives
forcing Sweeping Laser. -/
theorem forceAttack_clears_tracked_timers_only_witness :
    staleDamageCheck ∈ (forceAttack "sweeping_laser" midExecuteState).timers ∧
    (forceAttack "sweeping_laser" midExecuteState).phase = Phase.telegraph ∧
    (forceAttack "sweeping_laser" midExecuteState).currentAttack = some SWEEPING_LASER ∧
    (∀ u ∈ (forceAttack "sweeping_laser" midExecuteState).timers,
      u ∈ midExecuteState.timers →
      midExecuteState.attackTimer ≠ some u.id ∧ midExecuteState.phaseTimer ≠ some u.id) :=
  forceAttack_clears_tracked_timers_only midExecuteState "sweeping_laser"
    SWEEPING_LASER staleDamageCheck (by decide)
    (by norm_num +decide [midExecuteState, staleDamageCheck, run, step, fireEarliest,
      earliestTimer, runAction, runToExecuting, forceAttack, findAttack, ATTACK_REGISTRY,
      COMMON_ATTACKS, UNIQUE_ATTACKS, startAttack, clearTimer, addTimer, initFight, mkInit,
      List.find?, List.filter, SWEEPING_LASER, MISSILE_BARRAGE, STOMP_SHOCKWAVE, DEBRIS_STORM,
      CRYO_BLAST, SOLAR_FLARE, TOXIC_SPRAY, SYSTEM_CORRUPTION, ANDROSS_WRATH])
    (by norm_num +decide [midExecuteState, staleDamageCheck, run, step, fireEarliest,
      earliestTimer, runAction, runToExecuting, forceAttack, findAttack, ATTACK_REGISTRY,
      COMMON_ATTACKS, UNIQUE_ATTACKS, startAttack, clearTimer, addTimer, initFight, mkInit,
      List.find?, List.filter, SWEEPING_LASER, MISSILE_BARRAGE, STOMP_SHOCKWAVE, DEBRIS_STORM,
      CRYO_BLAST, SOLAR_FLARE, TOXIC_SPRAY, SYSTEM_CORRUPTION, ANDROSS_WRATH])
    (by norm_num +decide [midExecuteState, staleDamageCheck, run, step, fireEarliest,
      earliestTimer, runAction, runToExecuting, forceAttack, findAttack, ATTACK_REGISTRY,
      COMMON_ATTACKS, UNIQUE_ATTACKS, startAttack, clearTimer, addTimer, initFight, mkInit,
      List.find?, List.filter, SWEEPING_LASER, MISSILE_BARRAGE, STOMP_SHOCKWAVE, DEBRIS_STORM,
      CRYO_BLAST, SOLAR_FLARE, TOXIC_SPRAY, SYSTEM_CORRUPTION, ANDROSS_WRATH])
    (by norm_num +decide [midExecuteState, staleDamageCheck, run, step, fireEarliest,
      earliestTimer, runAction, runToExecuting, forceAttack, findAttack, ATTACK_REGISTRY,
      COMMON_ATTACKS, UNIQUE_ATTACKS, startAttack, clearTimer, addTimer, initFight, mkInit,
      List.find?, List.filter, SWEEPING_LASER, MISSILE_BARRAGE, STOMP_SHOCKWAVE, DEBRIS_STORM,
      CRYO_BLAST, SOLAR_FLARE, TOXIC_SPRAY, SYSTEM_CORRUPTION, ANDROSS_WRATH])

/-- Claim C4, counterexample: the player becomes invulnerable after Seismic
Stomp's telegraph elapses and before the 30%-mark check fires; the claim says
the flag is sampled at fire time so the player avoids the damage — yet the
check uses the value the closure captured at attack start (false) and the hit
callback fires anyway. -/
theorem damage_check_stale_invulnerability_cex :
    (run initFight [.force "stomp_shockwave", .fire, .setInvul true, .fire]).playerHitCalls
      = [40] ∧
    (run initFight [.force "stomp_shockwave", .fire, .setInvul true, .fire]).playerInvulnerable
      = true := by
  refine ⟨?_, ?_⟩ <;>
    norm_num +decide [run, step, fireEarliest, earliestTimer, runAction, runToExecuting,
      runDamageCheck, forceAttack, findAttack, ATTACK_REGISTRY, COMMON_ATTACKS, UNIQUE_ATTACKS,
      startAttack, clearTimer, addTimer, initFight, mkInit, List.find?, List.filter,
      SWEEPING_LASER, MISSILE_BARRAGE, STOMP_SHOCKWAVE, DEBRIS_STORM, CRYO_BLAST, SOLAR_FLARE,
      TOXIC_SPRAY, SYSTEM_CORRUPTION, ANDROSS_WRATH]

/-- Claim C4 (corrected): the 30%-mark damage check uses the
player-invulnerable value captured by the closure when the attack started,
not the value at fire time: whatever the flag is changed to after the attack
begins (b1), the hit is delivered iff the flag was clear at attack start
(b0). -/
theorem damage_check_uses_captured_invulnerability (b0 b1 : Bool) :
    (run initFight [.setInvul b0, .force "stomp_shockwave", .fire, .setInvul b1, .fire]).playerHitCalls
      = if b0 then [] else [40] := by
  cases b0 <;> cases b1 <;>
    norm_num +decide [run, step, fireEarliest, earliestTimer, runAction, runToExecuting,
      runDamageCheck, forceAttack, findAttack, ATTACK_REGISTRY, COMMON_ATTACKS, UNIQUE_ATTACKS,
      startAttack, clearTimer, addTimer, initFight, mkInit, List.find?, List.filter,
      SWEEPING_LASER, MISSILE_BARRAGE, STOMP_SHOCKWAVE, DEBRIS_STORM, CRYO_BLAST, SOLAR_FLARE,
      TOXIC_SPRAY, SYSTEM_CORRUPTION, ANDROSS_WRATH]

/-- Claim C7, counterexample: damageBoss with a negative amount drives health
above the max health fixed at encounter start (1000 → 1500), violating the
claimed invariant health ≤ maxHealth for arbitrary amounts. -/
theorem negative_damage_exceeds_maxHP_cex :
    initFight.currentHP = 1000 ∧ initFight.maxHP = 1000 ∧
    (damageBoss (-500) initFight).currentHP = 1500 ∧
    (damageBoss (-500) initFight).maxHP < (damageBoss (-500) initFight).currentHP := by
  refine ⟨?_, ?_, ?_, ?_⟩ <;>
    norm_num +decide [damageBoss, addTimer, initFight, mkInit]

/-- Claim C7 (corrected): along every event run whose external damage amounts
are nonnegative, 0 ≤ health ≤ maxHealth holds and maxHealth stays fixed at
its encounter-start value; the lower bound needs no assumption, but the upper
bound genuinely requires nonnegative amounts (see the counterexample). -/
theorem health_invariant_under_nonneg_damage (bossLevel : Nat) (maxHP : ℚ)
    (rands : List ℚ) (events : List Event) (hmax : 0 ≤ maxHP)
    (hev : ∀ e ∈ events, eventAmountOk e) :
    0 ≤ (run (mkInit bossLevel maxHP rands) events).currentHP ∧
    (run (mkInit bossLevel maxHP rands) events).currentHP
      ≤ (run (mkInit bossLevel maxHP rands) events).maxHP ∧
    (run (mkInit bossLevel maxHP rands) events).maxHP = maxHP :=
  run_health events (mkInit bossLevel maxHP rands) hev hmax (le_refl _)

/-- Witness for health_invariant_under_nonneg_damage: a short level-1 run
with two nonnegative damage events and a timer firing. -/
theorem health_invariant_under_nonneg_damage_witness :
    0 ≤ (run (mkInit 1 1000 []) [.damage 200, .fire, .damage 900]).currentHP ∧
    (run (mkInit 1 1000 []) [.damage 200, .fire, .damage 900]).currentHP
      ≤ (run (mkInit 1 1000 []) [.damage 200, .fire, .damage 900]).maxHP ∧
    (run (mkInit 1 1000 []) [.damage 200, .fire, .damage 900]).maxHP = 1000 :=
  health_invariant_under_nonneg_damage 1 1000 [] [.damage 200, .fire, .damage 900]
    (by norm_num) (by decide)

/-- The source's weights.reduce((sum, w) => sum + w, 0), related to List.sum. -/
theorem foldl_add_eq_sum (ws : List ℚ) (c : ℚ) :
    ws.foldl (fun sum w => sum + w) c = c + ws.sum := by
  induction ws generalizing c with
  | nil => simp
  | cons w ws ih =>
    rw [List.foldl_cons, ih, List.sum_cons]
    ring

/-- The subtraction walk of the source agrees with the cumulative-weight
reading of the spec once "exceeds" is read as "reaches or exceeds": walking
with running draw (draw - cum) selects exactly the first attack whose
cumulative weight is ≥ draw. -/
theorem walkSelect_eq_firstCumReaching (attacks : List AttackDef) (ws : List ℚ)
    (draw cum : ℚ) :
    walkSelect attacks ws (draw - cum) = firstCumReaching attacks ws draw cum := by
  induction attacks generalizing ws draw cum with
  | nil => cases ws <;> rfl
  | cons a as ih =>
    cases ws with
    | nil => rfl
    | cons w ws =>
      simp only [walkSelect, firstCumReaching]
      by_cases h : draw ≤ cum + w
      · rw [if_pos (by linarith), if_pos h]
      · rw [if_neg (by intro hc; exact h (by linarith)), if_neg h,
          show draw - cum - w = draw - (cum + w) by ring, ih]

/-- With as many weights as attacks and a running draw below their sum, the
walk always selects some pending attack of the list. -/
theorem walkSelect_some_of_lt_sum (attacks : List AttackDef) (ws : List ℚ)
    (r : ℚ) (hlen : ws.length = attacks.length) (hne : attacks ≠ [])
    (hr : r < ws.sum) :
    ∃ a, walkSelect attacks ws r = some a ∧ a ∈ attacks := by
  induction attacks generalizing ws r with
  | nil => exact absurd rfl hne
  | cons a as ih =>
    cases ws with
    | nil => exact absurd hlen (by simp)
    | cons w ws =>
      by_cases h : r - w ≤ 0
      · exact ⟨a, by simp [walkSelect, h], List.mem_cons_self a as⟩
      · cases as with
        | nil =>
          have hws : ws = [] := List.length_eq_zero.mp (by simpa using hlen)
          rw [hws, List.sum_cons, List.sum_nil, add_zero] at hr
          exact absurd (by linarith : r - w ≤ 0) h
        | cons b bs =>
          have hlen' : ws.length = (b :: bs).length := by simpa using hlen
          have hr' : r - w < ws.sum := by
            rw [List.sum_cons] at hr
            linarith
          obtain ⟨c, hc, hcmem⟩ := ih ws (r - w) hlen' (by simp) hr'
          exact ⟨c, by simp [walkSelect, h, hc], List.mem_cons_of_mem a hcmem⟩

/-- Claim C8, counterexample: with two attacks of weight 1 each and the draw
landing exactly on the first cumulative boundary (rand 1/2, total weight 2,
draw 1), the code selects the FIRST attack (its running draw reaches 0),
while the first attack whose cumulative weight strictly exceeds the draw is
the SECOND — so "exceeds" must be read as "reaches or exceeds". -/
theorem weighted_selection_boundary_cex :
    selectRandomAttack [SWEEPING_LASER, MISSILE_BARRAGE] (some [1, 1]) (1/2)
      = some SWEEPING_LASER ∧
    firstCumExceeding [SWEEPING_LASER, MISSILE_BARRAGE] [1, 1]
      ((1/2) * (([1, 1] : List ℚ).foldl (fun sum w => sum + w) 0)) 0
      = some MISSILE_BARRAGE ∧
    SWEEPING_LASER.id ≠ MISSILE_BARRAGE.id := by
  refine ⟨?_, ?_, ?_⟩
  · norm_num [selectRandomAttack, walkSelect]
  · norm_num [firstCumExceeding]
  · decide

/-- Claim C8 (corrected): for a nonempty attack list with positive weights,
one per attack, and a Math.random() draw in [0,1): the draw scaled by the
total weight lies in [0, totalWeight); the selection equals the first attack
whose cumulative weight reaches or exceeds the scaled draw (the claim's
strict "exceeds" fails exactly on cumulative boundaries — see the
counterexample); the selection always yields an element of the list; and a
single-attack list is always selected regardless of its weight. -/
theorem weighted_selection_characterization (attacks : List AttackDef)
    (ws : List ℚ) (rand : ℚ) (hlen : ws.length = attacks.length)
    (hpos : ∀ w ∈ ws, 0 < w) (hne : attacks ≠ [])
    (h0 : 0 ≤ rand) (h1 : rand < 1) :
    (0 ≤ rand * ws.foldl (fun sum w => sum + w) 0 ∧
      rand * ws.foldl (fun sum w => sum + w) 0 < ws.foldl (fun sum w => sum + w) 0) ∧
    selectRandomAttack attacks (some ws) rand
      = firstCumReaching attacks ws (rand * ws.foldl (fun sum w => sum + w) 0) 0 ∧
    (∃ a, selectRandomAttack attacks (some ws) rand = some a ∧ a ∈ attacks) ∧
    (∀ (a : AttackDef) (w : ℚ), selectRandomAttack [a] (some [w]) rand = some a) := by
  have hfold : ws.foldl (fun sum w => sum + w) 0 = ws.sum := by
    rw [foldl_add_eq_sum, zero_add]
  have hwsne : ws ≠ [] := by
    intro hw
    apply hne
    rw [hw] at hlen
    exact List.length_eq_zero.mp hlen.symm
  have hsum : 0 < ws.sum := List.sum_pos ws hpos hwsne
  have hdraw0 : 0 ≤ rand * ws.sum := mul_nonneg h0 hsum.le
  have hdraw1 : rand * ws.sum < ws.sum := mul_lt_of_lt_one_left hsum h1
  obtain ⟨a, ha, hamem⟩ :=
    walkSelect_some_of_lt_sum attacks ws (rand * ws.sum) hlen hne hdraw1
  have hsel : selectRandomAttack attacks (some ws) rand = some a := by
    simp only [selectRandomAttack, hfold, ha]
  have hreach : firstCumReaching attacks ws (rand * ws.sum) 0 = some a := by
    rw [← walkSelect_eq_firstCumReaching, sub_zero, ha]
  refine ⟨⟨by rw [hfold]; exact hdraw0, by rw [hfold]; exact hdraw1⟩, ?_, ⟨a, hsel, hamem⟩, ?_⟩
  · rw [hfold, hsel, hreach]
  · intro b w
    have hfw : ([w] : List ℚ).foldl (fun sum x => sum + x) 0 = w := by simp
    by_cases h : rand * w - w ≤ 0
    · simp [selectRandomAttack, walkSelect, hfw, h]
    · simp [selectRandomAttack, walkSelect, hfw, h, List.getLast?]

/-- Witness for weighted_selection_characterization: both common attacks with
weight 1 each and the draw 1/4. -/
theorem weighted_selection_characterization_witness :
    (0 ≤ (1/4 : ℚ) * (([1, 1] : List ℚ).foldl (fun sum w => sum + w) 0) ∧
      (1/4 : ℚ) * (([1, 1] : List ℚ).foldl (fun sum w => sum + w) 0)
        < ([1, 1] : List ℚ).foldl (fun sum w => sum + w) 0) ∧
    selectRandomAttack [SWEEPING_LASER, MISSILE_BARRAGE] (some [1, 1]) (1/4)
      = firstCumReaching [SWEEPING_LASER, MISSILE_BARRAGE] [1, 1]
          ((1/4 : ℚ) * (([1, 1] : List ℚ).foldl (fun sum w => sum + w) 0)) 0 ∧
    (∃ a, selectRandomAttack [SWEEPING_LASER, MISSILE_BARRAGE] (some [1, 1]) (1/4)
      = some a ∧ a ∈ [SWEEPING_LASER, MISSILE_BARRAGE]) ∧
    (∀ (a : AttackDef) (w : ℚ), selectRandomAttack [a] (some [w]) (1/4) = some a) :=
  weighted_selection_characterization [SWEEPING_LASER, MISSILE_BARRAGE] [1, 1] (1/4)
    (by decide) (by norm_num) (by decide) (by norm_num) (by norm_num)

/-- Every attack in the unique table is typed "unique". -/
theorem unique_attacks_typed : ∀ u ∈ UNIQUE_ATTACKS, u.type = "unique" := by decide

/-- Claim C9 (confirmed): for every boss level, attacksForBoss(level).all
contains every common attack, and contains exactly one attack typed "unique"
when a unique attack is registered for that level, zero otherwise. -/
theorem attacksForBoss_common_plus_unique (level : Nat) :
    (∀ a ∈ COMMON_ATTACKS, a ∈ (getAttacksForBoss level).all) ∧
    ((getAttacksForBoss level).all.countP (fun a => decide (a.type = "unique"))
      = if ∃ u ∈ UNIQUE_ATTACKS, u.bossLevel = some level then 1 else 0) := by
  cases hfind : UNIQUE_ATTACKS.find? (fun a => decide (a.bossLevel = some level)) with
  | none =>
    have hno : ¬ ∃ u ∈ UNIQUE_ATTACKS, u.bossLevel = some level := by
      rintro ⟨u, hu, he⟩
      have hnp := List.find?_eq_none.mp hfind u hu
      simp only [decide_eq_true_eq] at hnp
      exact hnp he
    have hall : (getAttacksForBoss level).all = COMMON_ATTACKS := by
      simp [getAttacksForBoss, hfind]
    rw [hall, if_neg hno]
    exact ⟨fun a ha => ha, by decide⟩
  | some u =>
    have hmem : u ∈ UNIQUE_ATTACKS := List.mem_of_find?_eq_some hfind
    have hp : u.bossLevel = some level := by
      have hq := List.find?_some hfind
      simpa using hq
    have hall : (getAttacksForBoss level).all = COMMON_ATTACKS ++ [u] := by
      simp [getAttacksForBoss, hfind]
    rw [hall, if_pos ⟨u, hmem, hp⟩]
    refine ⟨fun a ha => List.mem_append_left _ ha, ?_⟩
    rw [List.countP_append]
    have hcommon : COMMON_ATTACKS.countP (fun a => decide (a.type = "unique")) = 0 := by
      decide
    have hone : ([u].countP (fun a => decide (a.type = "unique"))) = 1 := by
      simp [List.countP_cons, unique_attacks_typed u hmem]
    rw [hcommon, hone]

/-- Witness for attacksForBoss_common_plus_unique at level 3 (Fichina, which
registers Cryo Blast). -/
theorem attacksForBoss_common_plus_unique_witness :
    (∀ a ∈ COMMON_ATTACKS, a ∈ (getAttacksForBoss 3).all) ∧
    ((getAttacksForBoss 3).all.countP (fun a => decide (a.type = "unique"))
      = if ∃ u ∈ UNIQUE_ATTACKS, u.bossLevel = some 3 then 1 else 0) :=
  attacksForBoss_common_plus_unique 3
